import Mathlib

/-!
Verification of the analytics/personalization core of the MR/PR quiz bot.

The repository's core logic lives in `src/services/firestore.ts`
(`updateSkillStats`, `checkAndCreateMilestones`,
`calculateAndSaveTeamAnalytics`), `src/services/answerCommandHandler.ts`
(`handleAnswerCommand`) and the personalization service
(`calculateCategoryPriority`, `selectOptimalDifficulty`).

The embedding below translates these functions into pure Lean functions:
Firestore documents become explicit state (lists of records), JavaScript
numbers become exact rationals `ℚ` (the algorithms only use exact counts,
ratios of small integers and fixed decimal weights), `Timestamp.now()`
becomes an explicit time parameter, and the (collection, docId) read/write
pattern becomes explicit association-list lookup and overwrite.
-/

namespace MrQuiz

/-- The three quiz difficulty levels (`Difficulty` in `src/types`). -/
inductive Difficulty where
  | easy
  | medium
  | hard
deriving DecidableEq, Repr

/-- The numeric mapping used by `updateSkillStats`:
`difficultyMap = { easy: 1, medium: 2, hard: 3 }`. -/
def difficultyValue : Difficulty → ℚ
  | .easy => 1
  | .medium => 2
  | .hard => 3

/-- A `SkillStats` document (`src/types/entities/skillStats.ts`), as created
and updated by `updateSkillStats` in `src/services/firestore.ts`.
`lastAnsweredAt` keeps only the seconds field of the 2-field timestamp. -/
structure SkillStats where
  accountId : String
  category : String
  totalQuizzes : ℕ
  correctCount : ℕ
  correctRate : ℚ
  averageDifficulty : ℚ
  lastAnsweredAt : ℤ
  weeklyTrend : ℚ
  monthlyTrend : ℚ
deriving DecidableEq, Repr

/-- Shallow embedding of `updateSkillStats` (`src/services/firestore.ts`,
lines 390–453).  The document read (`doc.exists` / `doc.data()`) is passed
in as `existing`; the write-back is the returned record. -/
def updateSkillStats (existing : Option SkillStats) (accountId category : String)
    (difficulty : Difficulty) (isCorrect : Bool) (now : ℤ) : SkillStats :=
  let difficultyVal := difficultyValue difficulty
  match existing with
  | some existingData =>
      let newTotalQuizzes := existingData.totalQuizzes + 1
      let newCorrectCount := existingData.correctCount + (if isCorrect then 1 else 0)
      let newCorrectRate : ℚ := (newCorrectCount : ℚ) / (newTotalQuizzes : ℚ)
      let newAverageDifficulty : ℚ :=
        (existingData.averageDifficulty * (existingData.totalQuizzes : ℚ) + difficultyVal) /
          (newTotalQuizzes : ℚ)
      { existingData with
        totalQuizzes := newTotalQuizzes
        correctCount := newCorrectCount
        correctRate := newCorrectRate
        averageDifficulty := newAverageDifficulty
        lastAnsweredAt := now }
  | none =>
      { accountId := accountId
        category := category
        totalQuizzes := 1
        correctCount := if isCorrect then 1 else 0
        correctRate := if isCorrect then 1 else 0
        averageDifficulty := difficultyVal
        lastAnsweredAt := now
        weeklyTrend := 0
        monthlyTrend := 0 }

/-- Folding a sequence of answers `(difficulty, isCorrect, now)` into a
category stat, starting from an arbitrary stored state, exactly as repeated
calls of `updateSkillStats` on the same (user, category) document do. -/
def foldAnswersFrom (s0 : Option SkillStats) (accountId category : String)
    (answers : List (Difficulty × Bool × ℤ)) : Option SkillStats :=
  answers.foldl
    (fun acc x => some (updateSkillStats acc accountId category x.1 x.2.1 x.2.2)) s0

/-- Repeated `updateSkillStats` calls starting from no stored stat. -/
def foldAnswers (accountId category : String)
    (answers : List (Difficulty × Bool × ℤ)) : Option SkillStats :=
  foldAnswersFrom none accountId category answers

/-- The `CategoryStat` invariant of the spec's data model. -/
def statOk (s : SkillStats) : Prop := s.correctCount ≤ s.totalQuizzes

/-- `statOk` extended to a possibly-absent stored stat. -/
def statOkOpt : Option SkillStats → Prop
  | none => True
  | some s => statOk s

section SkillTrackerLemmas

lemma updateSkillStats_some_fields (prev : SkillStats) (a c : String)
    (d : Difficulty) (b : Bool) (now : ℤ) :
    let s := updateSkillStats (some prev) a c d b now
    s.totalQuizzes = prev.totalQuizzes + 1 ∧
    s.correctCount = prev.correctCount + (if b then 1 else 0) ∧
    s.correctRate = ((prev.correctCount + (if b then 1 else 0) : ℕ) : ℚ) /
      ((prev.totalQuizzes + 1 : ℕ) : ℚ) ∧
    s.averageDifficulty =
      (prev.averageDifficulty * (prev.totalQuizzes : ℚ) + difficultyValue d) /
        ((prev.totalQuizzes : ℚ) + 1) := by
  refine ⟨rfl, rfl, rfl, ?_⟩
  simp [updateSkillStats]

lemma updateSkillStats_some_avg_mul (prev : SkillStats) (a c : String)
    (d : Difficulty) (b : Bool) (now : ℤ) :
    (updateSkillStats (some prev) a c d b now).averageDifficulty *
      (((updateSkillStats (some prev) a c d b now).totalQuizzes : ℕ) : ℚ) =
      prev.averageDifficulty * (prev.totalQuizzes : ℚ) + difficultyValue d := by
  have h := (updateSkillStats_some_fields prev a c d b now).2.2.2
  have ht : (updateSkillStats (some prev) a c d b now).totalQuizzes
      = prev.totalQuizzes + 1 := rfl
  rw [ht, h]
  have hne : ((prev.totalQuizzes : ℚ) + 1) ≠ 0 := by positivity
  push_cast
  field_simp

/-- Accumulated form of the running-mean invariant: total count and
(average × count) after folding any further answers. -/
lemma foldAnswersFrom_avg (a c : String) :
    ∀ (answers : List (Difficulty × Bool × ℤ)) (s : SkillStats),
      ∃ t, foldAnswersFrom (some s) a c answers = some t ∧
        t.totalQuizzes = s.totalQuizzes + answers.length ∧
        t.averageDifficulty * (t.totalQuizzes : ℚ) =
          s.averageDifficulty * (s.totalQuizzes : ℚ) +
            (answers.map (fun x => difficultyValue x.1)).sum := by
  intro answers
  induction answers with
  | nil => intro s; exact ⟨s, rfl, by simp, by simp⟩
  | cons x rest ih =>
      intro s
      obtain ⟨t, hfold, htot, havg⟩ := ih (updateSkillStats (some s) a c x.1 x.2.1 x.2.2)
      refine ⟨t, hfold, ?_, ?_⟩
      · have : (updateSkillStats (some s) a c x.1 x.2.1 x.2.2).totalQuizzes
            = s.totalQuizzes + 1 := rfl
        rw [htot, this, List.length_cons]
        omega
      · rw [havg, updateSkillStats_some_avg_mul]
        simp [List.map_cons, List.sum_cons]
        ring

lemma updateSkillStats_invariant_step (s0 : Option SkillStats) (a c : String)
    (d : Difficulty) (b : Bool) (now : ℤ) (h : statOkOpt s0) :
    let s := updateSkillStats s0 a c d b now
    s.correctCount ≤ s.totalQuizzes ∧ 0 < s.totalQuizzes ∧
    s.correctRate = (s.correctCount : ℚ) / (s.totalQuizzes : ℚ) := by
  match s0 with
  | none =>
      refine ⟨?_, ?_, ?_⟩ <;> cases b <;> simp [updateSkillStats]
  | some prev =>
      have hprev : prev.correctCount ≤ prev.totalQuizzes := h
      refine ⟨?_, ?_, ?_⟩
      · show prev.correctCount + (if b then 1 else 0) ≤ prev.totalQuizzes + 1
        cases b <;> simp <;> omega
      · show 0 < prev.totalQuizzes + 1
        omega
      · rfl

lemma foldAnswersFrom_invariant (a c : String) :
    ∀ (answers : List (Difficulty × Bool × ℤ)) (s0 : Option SkillStats),
      statOkOpt s0 → answers ≠ [] →
      ∃ s, foldAnswersFrom s0 a c answers = some s ∧
        s.correctCount ≤ s.totalQuizzes ∧
        s.correctRate = (s.correctCount : ℚ) / (s.totalQuizzes : ℚ) := by
  intro answers
  induction answers with
  | nil => intro s0 _ hne; exact absurd rfl hne
  | cons x rest ih =>
      intro s0 h0 _
      have hstep := updateSkillStats_invariant_step s0 a c x.1 x.2.1 x.2.2 h0
      have hfold : foldAnswersFrom s0 a c (x :: rest)
          = foldAnswersFrom (some (updateSkillStats s0 a c x.1 x.2.1 x.2.2)) a c rest := rfl
      cases rest with
      | nil =>
          exact ⟨updateSkillStats s0 a c x.1 x.2.1 x.2.2, hfold, hstep.1, hstep.2.2⟩
      | cons y ys =>
          obtain ⟨s, hs, h1, h2⟩ :=
            ih (some (updateSkillStats s0 a c x.1 x.2.1 x.2.2)) hstep.1 (by simp)
          exact ⟨s, by rw [hfold]; exact hs, h1, h2⟩

end SkillTrackerLemmas

/-- C1: the SkillTracker update `updateSkillStats` creates a fresh stat with
`totalQuizzes = 1`, `correctCount = (isCorrect ? 1 : 0)`,
`correctRate = correctCount` and `averageDifficulty = numeric(difficulty)`;
updates an existing stat `(t, c, a)` to `(t+1, c + bit, (c+bit)/(t+1),
(a·t + numeric(difficulty))/(t+1))`; and consequently, after any sequence of
N answers starting from no stat, `averageDifficulty` is the exact arithmetic
mean of the N numeric difficulty values. -/
theorem updateSkillStats_running_mean :
    (∀ (a c : String) (d : Difficulty) (b : Bool) (now : ℤ),
        (updateSkillStats none a c d b now).totalQuizzes = 1 ∧
        (updateSkillStats none a c d b now).correctCount = (if b then 1 else 0) ∧
        (updateSkillStats none a c d b now).correctRate =
          ((updateSkillStats none a c d b now).correctCount : ℚ) ∧
        (updateSkillStats none a c d b now).averageDifficulty = difficultyValue d) ∧
    (∀ (prev : SkillStats) (a c : String) (d : Difficulty) (b : Bool) (now : ℤ),
        (updateSkillStats (some prev) a c d b now).totalQuizzes = prev.totalQuizzes + 1 ∧
        (updateSkillStats (some prev) a c d b now).correctCount =
          prev.correctCount + (if b then 1 else 0) ∧
        (updateSkillStats (some prev) a c d b now).correctRate =
          (((updateSkillStats (some prev) a c d b now).correctCount : ℕ) : ℚ) /
            (((updateSkillStats (some prev) a c d b now).totalQuizzes : ℕ) : ℚ) ∧
        (updateSkillStats (some prev) a c d b now).averageDifficulty =
          (prev.averageDifficulty * (prev.totalQuizzes : ℚ) + difficultyValue d) /
            ((prev.totalQuizzes : ℚ) + 1)) ∧
    (∀ (a c : String) (answers : List (Difficulty × Bool × ℤ)), answers ≠ [] →
        ∃ s, foldAnswers a c answers = some s ∧
          s.totalQuizzes = answers.length ∧
          s.averageDifficulty =
            (answers.map (fun x => difficultyValue x.1)).sum / (answers.length : ℚ)) := by
  refine ⟨?_, ?_, ?_⟩
  · intro a c d b now
    refine ⟨rfl, rfl, ?_, rfl⟩
    cases b <;> simp [updateSkillStats]
  · intro prev a c d b now
    exact (updateSkillStats_some_fields prev a c d b now)
  · intro a c answers hne
    obtain ⟨x, rest, rfl⟩ := List.exists_cons_of_ne_nil hne
    obtain ⟨t, hfold, htot, havg⟩ :=
      foldAnswersFrom_avg a c rest (updateSkillStats none a c x.1 x.2.1 x.2.2)
    have h1tot : (updateSkillStats none a c x.1 x.2.1 x.2.2).totalQuizzes = 1 := rfl
    have h1avg : (updateSkillStats none a c x.1 x.2.1 x.2.2).averageDifficulty
        = difficultyValue x.1 := rfl
    refine ⟨t, by simpa [foldAnswers, foldAnswersFrom] using hfold, ?_, ?_⟩
    · rw [htot, h1tot, List.length_cons]; omega
    · have htotq : ((x :: rest).length : ℚ) = ((t.totalQuizzes : ℕ) : ℚ) := by
        rw [htot, h1tot]; push_cast [List.length_cons]; ring
      have hlen : ((x :: rest).length : ℚ) ≠ 0 := by
        exact_mod_cast Nat.cast_ne_zero.mpr (by simp)
      have hmul : t.averageDifficulty * ((x :: rest).length : ℚ) =
          ((x :: rest).map (fun y => difficultyValue y.1)).sum := by
        rw [htotq, havg, h1tot, h1avg, List.map_cons, List.sum_cons]
        norm_num
      exact (eq_div_iff hlen).mpr hmul

/-- Witness for C1: two concrete answers (easy then hard) starting from no
stat give `totalQuizzes = 2` and average difficulty `(1 + 3) / 2`. -/
theorem updateSkillStats_running_mean_witness :
    ∃ s, foldAnswers "u" "security"
        [(Difficulty.easy, true, 0), (Difficulty.hard, false, 1)] = some s ∧
      s.totalQuizzes = [(Difficulty.easy, true, (0 : ℤ)),
        (Difficulty.hard, false, 1)].length ∧
      s.averageDifficulty =
        ([(Difficulty.easy, true, (0 : ℤ)), (Difficulty.hard, false, 1)].map
          (fun x => difficultyValue x.1)).sum /
          (([(Difficulty.easy, true, (0 : ℤ)), (Difficulty.hard, false, 1)].length : ℚ)) :=
  updateSkillStats_running_mean.2.2 "u" "security"
    [(Difficulty.easy, true, 0), (Difficulty.hard, false, 1)] (by simp)

/-- C2: after every `updateSkillStats` update — starting from no stat or any
stat with `correctCount ≤ totalQuizzes` — the resulting stat again satisfies
`correctCount ≤ totalQuizzes`, and its stored `correctRate` equals
`correctCount / totalQuizzes` (the total is positive after any update). -/
theorem updateSkillStats_invariant :
    (∀ (s0 : Option SkillStats) (a c : String) (d : Difficulty) (b : Bool) (now : ℤ),
        statOkOpt s0 →
        (updateSkillStats s0 a c d b now).correctCount ≤
            (updateSkillStats s0 a c d b now).totalQuizzes ∧
          0 < (updateSkillStats s0 a c d b now).totalQuizzes ∧
          (updateSkillStats s0 a c d b now).correctRate =
            ((updateSkillStats s0 a c d b now).correctCount : ℚ) /
              ((updateSkillStats s0 a c d b now).totalQuizzes : ℚ)) ∧
    (∀ (s0 : Option SkillStats) (a c : String) (answers : List (Difficulty × Bool × ℤ)),
        statOkOpt s0 → answers ≠ [] →
        ∃ s, foldAnswersFrom s0 a c answers = some s ∧
          s.correctCount ≤ s.totalQuizzes ∧
          s.correctRate = (s.correctCount : ℚ) / (s.totalQuizzes : ℚ)) := by
  constructor
  · intro s0 a c d b now h
    exact updateSkillStats_invariant_step s0 a c d b now h
  · intro s0 a c answers h0 hne
    exact foldAnswersFrom_invariant a c answers s0 h0 hne

/-- Witness for C2: a concrete three-answer sequence from no stat keeps
`correctCount ≤ totalQuizzes` and a consistent `correctRate`. -/
theorem updateSkillStats_invariant_witness :
    (statOkOpt (none : Option SkillStats) →
      (updateSkillStats none "u" "logic" Difficulty.easy true 0).correctCount ≤
          (updateSkillStats none "u" "logic" Difficulty.easy true 0).totalQuizzes ∧
        0 < (updateSkillStats none "u" "logic" Difficulty.easy true 0).totalQuizzes ∧
        (updateSkillStats none "u" "logic" Difficulty.easy true 0).correctRate =
          ((updateSkillStats none "u" "logic" Difficulty.easy true 0).correctCount : ℚ) /
            ((updateSkillStats none "u" "logic" Difficulty.easy true 0).totalQuizzes : ℚ)) ∧
    (∃ s, foldAnswersFrom none "u" "logic"
        [(Difficulty.easy, true, 0), (Difficulty.medium, false, 1),
          (Difficulty.hard, true, 2)] = some s ∧
      s.correctCount ≤ s.totalQuizzes ∧
      s.correctRate = (s.correctCount : ℚ) / (s.totalQuizzes : ℚ)) :=
  ⟨fun h => updateSkillStats_invariant.1 none "u" "logic" Difficulty.easy true 0 h,
    updateSkillStats_invariant.2 none "u" "logic"
      [(Difficulty.easy, true, 0), (Difficulty.medium, false, 1),
        (Difficulty.hard, true, 2)] trivial (by simp)⟩

/-- A `User` document (`src/types/entities/user.ts`): cumulative totals
maintained by `updateUserStats`. -/
structure User where
  accountId : String
  totalQuizzes : ℕ
  correctCount : ℕ
deriving DecidableEq, Repr

/-- An `Answer` document (`src/types/entities/answer.ts`) as written by
`createAnswer` in `src/services/firestore.ts`. -/
structure AnswerRec where
  answerId : String
  quizId : String
  accountId : String
  selectedAnswerIndex : ℕ
  isCorrect : Bool
  category : String
  difficulty : Difficulty
  answeredAt : ℤ
deriving DecidableEq, Repr

/-- The milestone types produced by `checkAndCreateMilestones`. -/
inductive MilestoneType where
  | first_correct
  | category_master
  | total_milestone
deriving DecidableEq, Repr

/-- A `GrowthMilestone` document (`src/types/entities/growthMilestone.ts`);
`category` is absent (`none`) for cumulative-total milestones. -/
structure Milestone where
  accountId : String
  type : MilestoneType
  category : Option String
  achievement : String
deriving DecidableEq, Repr

/-- The predicate of the Firestore query in `checkAndCreateMilestones`:
`accountId == accountId && type == "category_master" && category == answer.category`. -/
def isMasterFor (accountId category : String) (m : Milestone) : Bool :=
  m.accountId == accountId && m.type == MilestoneType.category_master &&
    m.category == some category

/-- Shallow embedding of `checkAndCreateMilestones`
(`src/services/firestore.ts`, lines 541–606).  The milestone collection is
passed in as `store`; the returned list is what the final loop writes. -/
def checkAndCreateMilestones (accountId : String) (answer : AnswerRec) (user : User)
    (skillStats : Option SkillStats) (store : List Milestone) : List Milestone :=
  let m1 : List Milestone :=
    if answer.isCorrect = true ∧ user.correctCount = 1 then
      [{ accountId := accountId, type := .first_correct,
         category := some answer.category,
         achievement := "初めてのクイズで正解しました！" }]
    else []
  let m2 : List Milestone :=
    match skillStats with
    | some s =>
        if s.correctRate ≥ 0.8 ∧ s.totalQuizzes ≥ 5 then
          if store.any (isMasterFor accountId answer.category) then []
          else [{ accountId := accountId, type := .category_master,
                  category := some answer.category,
                  achievement := answer.category ++ "分野で正答率80%達成！" }]
        else []
    | none => []
  let m3 : List Milestone :=
    if user.totalQuizzes ∈ [10, 50, 100, 500, 1000] then
      [{ accountId := accountId, type := .total_milestone, category := none,
         achievement := "累計" ++ toString user.totalQuizzes ++ "問に回答しました！" }]
    else []
  m1 ++ m2 ++ m3

/-- One milestone-check invocation, as an input record: the answer together
with the (post-update) user totals and category stat it is checked against. -/
structure MilestoneEvent where
  accountId : String
  answer : AnswerRec
  user : User
  skillStats : Option SkillStats

/-- A sequential run of `checkAndCreateMilestones`: the new milestones are
appended to the store before the next check reads it. -/
def milestoneStep (store : List Milestone) (e : MilestoneEvent) : List Milestone :=
  store ++ checkAndCreateMilestones e.accountId e.answer e.user e.skillStats store

/-- Number of category-mastery milestones stored for a (user, category) pair. -/
def countMaster (store : List Milestone) (accountId category : String) : ℕ :=
  (store.filter (isMasterFor accountId category)).length

section MilestoneLemmas

lemma isMasterFor_iff (a c : String) (m : Milestone) :
    isMasterFor a c m = true ↔
      m.accountId = a ∧ m.type = MilestoneType.category_master ∧
        m.category = some c := by
  simp [isMasterFor, Bool.and_eq_true, and_assoc]

lemma countMaster_append (s t : List Milestone) (a c : String) :
    countMaster (s ++ t) a c = countMaster s a c + countMaster t a c := by
  simp [countMaster, List.filter_append]

lemma countMaster_eq_zero_iff (store : List Milestone) (a c : String) :
    countMaster store a c = 0 ↔ store.any (isMasterFor a c) = false := by
  simp [countMaster, List.length_eq_zero, List.filter_eq_nil_iff, List.any_eq_false]

lemma any_isMasterFor_iff (store : List Milestone) (a c : String) :
    store.any (isMasterFor a c) = true ↔
      ∃ m ∈ store, m.accountId = a ∧ m.type = MilestoneType.category_master ∧
        m.category = some c := by
  simp [List.any_eq_true, isMasterFor_iff]

lemma countMaster_not_master (l : List Milestone) (a c : String)
    (hm : ∀ m ∈ l, m.type ≠ MilestoneType.category_master) :
    countMaster l a c = 0 := by
  simp only [countMaster, List.length_eq_zero, List.filter_eq_nil_iff]
  intro m hmem
  simp only [isMasterFor_iff]
  rintro ⟨-, hty, -⟩
  exact hm m hmem hty

lemma countMaster_nil (a c : String) : countMaster [] a c = 0 := rfl

lemma countMaster_single (m : Milestone) (a c : String) :
    countMaster [m] a c = if isMasterFor a c m then 1 else 0 := by
  simp only [countMaster, List.filter]
  split <;> simp_all

lemma countMaster_first_branch (acc : String) (ans : AnswerRec) (u : User)
    (a c : String) :
    countMaster
      (if ans.isCorrect = true ∧ u.correctCount = 1 then
        [{ accountId := acc, type := .first_correct,
           category := some ans.category,
           achievement := "初めてのクイズで正解しました！" }]
      else []) a c = 0 := by
  split
  · exact countMaster_not_master _ a c (by intro m hm; simp at hm; subst hm; simp)
  · rfl

lemma countMaster_total_branch (acc : String) (u : User) (a c : String) :
    countMaster
      (if u.totalQuizzes ∈ [10, 50, 100, 500, 1000] then
        [{ accountId := acc, type := .total_milestone, category := none,
           achievement := "累計" ++ toString u.totalQuizzes ++ "問に回答しました！" }]
      else []) a c = 0 := by
  split
  · exact countMaster_not_master _ a c (by intro m hm; simp at hm; subst hm; simp)
  · rfl

lemma countMaster_new_le_one (acc : String) (ans : AnswerRec) (u : User)
    (st : Option SkillStats) (store : List Milestone) (a c : String) :
    countMaster (checkAndCreateMilestones acc ans u st store) a c ≤ 1 := by
  simp only [checkAndCreateMilestones, countMaster_append]
  rw [countMaster_first_branch, countMaster_total_branch]
  rcases st with _ | s
  · simp [countMaster_nil]
  · simp only
    split
    · split
      · simp [countMaster_nil]
      · rw [countMaster_single]
        split <;> simp
    · simp [countMaster_nil]

lemma countMaster_new_pos (acc : String) (ans : AnswerRec) (u : User)
    (st : Option SkillStats) (store : List Milestone) (a c : String)
    (h : 0 < countMaster (checkAndCreateMilestones acc ans u st store) a c) :
    countMaster store a c = 0 := by
  simp only [checkAndCreateMilestones, countMaster_append] at h
  rw [countMaster_first_branch, countMaster_total_branch] at h
  rcases st with _ | s
  · simp [countMaster_nil] at h
  · simp only at h
    split at h
    · split at h
      · simp [countMaster_nil] at h
      · rename_i hany
        rw [countMaster_single] at h
        split at h
        · rename_i hmem
          rw [isMasterFor_iff] at hmem
          obtain ⟨ha, -, hc⟩ := hmem
          have ha' : acc = a := ha
          have hc' : some ans.category = some c := hc
          have hcc : ans.category = c := Option.some_inj.mp hc'
          rw [countMaster_eq_zero_iff, ← ha', ← hcc]
          simpa using hany
        · simp at h
    · simp [countMaster_nil] at h

lemma countMaster_step_le (store : List Milestone) (e : MilestoneEvent)
    (a c : String) (h : countMaster store a c ≤ 1) :
    countMaster (milestoneStep store e) a c ≤ 1 := by
  rw [milestoneStep, countMaster_append]
  rcases Nat.eq_zero_or_pos
      (countMaster (checkAndCreateMilestones e.accountId e.answer e.user e.skillStats store) a c)
    with hz | hp
  · omega
  · have h0 := countMaster_new_pos e.accountId e.answer e.user e.skillStats store a c hp
    have hle := countMaster_new_le_one e.accountId e.answer e.user e.skillStats store a c
    omega

lemma countMaster_foldl_le (events : List MilestoneEvent) :
    ∀ (store : List Milestone) (a c : String), countMaster store a c ≤ 1 →
      countMaster (events.foldl milestoneStep store) a c ≤ 1 := by
  induction events with
  | nil => intro store a c h; exact h
  | cons e rest ih =>
      intro store a c h
      exact ih (milestoneStep store e) a c (countMaster_step_le store e a c h)

end MilestoneLemmas

/-- C3: `checkAndCreateMilestones` emits a category-mastery milestone iff the
updated category stat has `correctRate ≥ 0.8`, `totalQuizzes ≥ 5` and no
`category_master` milestone already exists for that exact (user, category)
pair; consequently a sequential run of milestone checks, starting from an
empty store, never holds more than one category-mastery milestone per
(user, category). -/
theorem category_master_at_most_once :
    (∀ (acc : String) (ans : AnswerRec) (u : User) (s : SkillStats)
        (store : List Milestone),
        (∃ m ∈ checkAndCreateMilestones acc ans u (some s) store,
            m.accountId = acc ∧ m.type = MilestoneType.category_master ∧
              m.category = some ans.category) ↔
          (s.correctRate ≥ 0.8 ∧ s.totalQuizzes ≥ 5 ∧
            ¬ ∃ m ∈ store, m.accountId = acc ∧ m.type = MilestoneType.category_master ∧
              m.category = some ans.category)) ∧
    (∀ (events : List MilestoneEvent) (a c : String),
        countMaster (events.foldl milestoneStep []) a c ≤ 1) := by
  constructor
  · intro acc ans u s store
    constructor
    · rintro ⟨m, hmem, hacc, hty, hcat⟩
      simp only [checkAndCreateMilestones, List.mem_append] at hmem
      rcases hmem with (hm | hm) | hm
      · split at hm
        · simp at hm; subst hm; exact absurd hty (by simp)
        · simp at hm
      · split at hm
        · rename_i hcond
          split at hm
          · simp at hm
          · rename_i hany
            exact ⟨hcond.1, hcond.2,
              fun hex => hany ((any_isMasterFor_iff store acc ans.category).mpr hex)⟩
        · simp at hm
      · split at hm
        · simp at hm; subst hm; exact absurd hty (by simp)
        · simp at hm
    · rintro ⟨hrate, htot, hnex⟩
      have hany : store.any (isMasterFor acc ans.category) = false := by
        rw [← Bool.not_eq_true]
        exact fun h => hnex ((any_isMasterFor_iff store acc ans.category).mp h)
      refine ⟨{ accountId := acc, type := .category_master,
                category := some ans.category,
                achievement := ans.category ++ "分野で正答率80%達成！" },
              ?_, rfl, rfl, rfl⟩
      simp only [checkAndCreateMilestones, List.mem_append]
      left; right
      rw [if_pos ⟨hrate, htot⟩, if_neg (by simp [hany])]
      simp
  · intro events a c
    exact countMaster_foldl_le events [] a c (by simp [countMaster_nil])

/-- A fixed answer record used for the concrete milestone-check runs. -/
def sampleAnswer : AnswerRec :=
  { answerId := "a1", quizId := "q1", accountId := "u",
    selectedAnswerIndex := 0, isCorrect := false,
    category := "security", difficulty := .easy, answeredAt := 0 }

/-- C4: `checkAndCreateMilestones` emits a cumulative-threshold milestone iff
the user's cumulative total equals exactly one of 10, 50, 100, 500, 1000;
concretely, a total of 50 fires while totals of 51 and 60 (a total that
jumped past 50) do not. -/
theorem total_milestone_exact_thresholds :
    (∀ (acc : String) (ans : AnswerRec) (u : User) (st : Option SkillStats)
        (store : List Milestone),
        (∃ m ∈ checkAndCreateMilestones acc ans u st store,
            m.type = MilestoneType.total_milestone) ↔
          u.totalQuizzes ∈ [10, 50, 100, 500, 1000]) ∧
    (∃ m ∈ checkAndCreateMilestones "u" sampleAnswer ⟨"u", 50, 20⟩ none [],
        m.type = MilestoneType.total_milestone) ∧
    ¬(∃ m ∈ checkAndCreateMilestones "u" sampleAnswer ⟨"u", 51, 20⟩ none [],
        m.type = MilestoneType.total_milestone) ∧
    ¬(∃ m ∈ checkAndCreateMilestones "u" sampleAnswer ⟨"u", 60, 20⟩ none [],
        m.type = MilestoneType.total_milestone) := by
  have hiff : ∀ (acc : String) (ans : AnswerRec) (u : User) (st : Option SkillStats)
      (store : List Milestone),
      (∃ m ∈ checkAndCreateMilestones acc ans u st store,
          m.type = MilestoneType.total_milestone) ↔
        u.totalQuizzes ∈ [10, 50, 100, 500, 1000] := by
    intro acc ans u st store
    constructor
    · rintro ⟨m, hmem, hty⟩
      simp only [checkAndCreateMilestones, List.mem_append] at hmem
      rcases hmem with (hm | hm) | hm
      · split at hm
        · simp at hm; subst hm; exact absurd hty (by simp)
        · simp at hm
      · rcases st with _ | s
        · simp at hm
        · simp only at hm
          split at hm
          · split at hm
            · simp at hm
            · simp at hm; subst hm; exact absurd hty (by simp)
          · simp at hm
      · split at hm
        · rename_i hin
          exact hin
        · simp at hm
    · intro hin
      refine ⟨{ accountId := acc, type := .total_milestone, category := none,
                achievement := "累計" ++ toString u.totalQuizzes ++ "問に回答しました！" },
              ?_, rfl⟩
      simp only [checkAndCreateMilestones, List.mem_append]
      right
      rw [if_pos hin]
      simp
  refine ⟨hiff, (hiff _ _ _ _ _).mpr (by decide), ?_, ?_⟩
  · intro h
    exact absurd ((hiff _ _ _ _ _).mp h) (by decide)
  · intro h
    exact absurd ((hiff _ _ _ _ _).mp h) (by decide)

/-- A `Quiz` document (`src/types/entities/quiz.ts`), restricted to the
fields the answer flow reads. -/
structure Quiz where
  quizId : String
  accountId : String
  category : String
  difficulty : Difficulty
  correctAnswerIndex : ℕ
deriving DecidableEq, Repr

/-- The Firestore collections touched by the answer flow, as explicit state. -/
structure DBState where
  answers : List AnswerRec
  users : List User
  skillStats : List SkillStats
  milestones : List Milestone
deriving DecidableEq, Repr

/-- `getAnswersByUser` (`src/services/firestore.ts`): the user's answer
records.  The source additionally orders them by `answeredAt` descending;
the embedding keeps store order, which the verified properties do not
depend on. -/
def getAnswersByUser (st : DBState) (accountId : String) : List AnswerRec :=
  st.answers.filter (fun a => a.accountId == accountId)

/-- `getSkillStatsByUser` (`src/services/firestore.ts`). -/
def getSkillStatsByUser (st : DBState) (accountId : String) : List SkillStats :=
  st.skillStats.filter (fun s => s.accountId == accountId)

/-- The document read behind `updateSkillStats`: the stat stored under
`accountId_category`. -/
def getSkillStat (st : DBState) (accountId category : String) : Option SkillStats :=
  st.skillStats.find? (fun s => s.accountId == accountId && s.category == category)

/-- `createAnswer` (`src/services/firestore.ts`, lines 199–226): builds the
answer record, judging correctness against the quiz. -/
def createAnswer (answerId quizId accountId : String) (selectedAnswerIndex : ℕ)
    (quiz : Quiz) (now : ℤ) : AnswerRec :=
  { answerId := answerId, quizId := quizId, accountId := accountId,
    selectedAnswerIndex := selectedAnswerIndex,
    isCorrect := selectedAnswerIndex == quiz.correctAnswerIndex,
    category := quiz.category, difficulty := quiz.difficulty, answeredAt := now }

/-- `updateUserStats` (`src/services/firestore.ts`, lines 116–134):
increments the cumulative totals of the user's document. -/
def updateUserStatsState (st : DBState) (accountId : String) (isCorrect : Bool) :
    DBState :=
  { st with users := st.users.map (fun u =>
      if u.accountId == accountId then
        { u with totalQuizzes := u.totalQuizzes + 1,
                 correctCount := u.correctCount + (if isCorrect then 1 else 0) }
      else u) }

/-- `updateSkillStats` as a state transition: read the stat document for
(user, category), apply the pure update, write it back (update or create). -/
def updateSkillStatsState (st : DBState) (accountId category : String)
    (difficulty : Difficulty) (isCorrect : Bool) (now : ℤ) : DBState :=
  match getSkillStat st accountId category with
  | some s =>
      { st with skillStats := st.skillStats.map (fun t =>
          if t.accountId == accountId && t.category == category then
            updateSkillStats (some s) accountId category difficulty isCorrect now
          else t) }
  | none =>
      { st with skillStats :=
          st.skillStats ++ [updateSkillStats none accountId category difficulty isCorrect now] }

/-- `AnswerCommandResult` (`src/services/answerCommandHandler.ts`); the
optional `alreadyAnswered` flag is modelled as `false` when absent, and the
rendered message string is omitted. -/
structure AnswerCommandResult where
  success : Bool
  isCorrect : Bool
  quiz : Quiz
  answer : AnswerRec
  stats : List SkillStats
  newMilestones : List Milestone
  alreadyAnswered : Bool
deriving DecidableEq, Repr

/-- Shallow embedding of `handleAnswerCommand`
(`src/services/answerCommandHandler.ts`, lines 40–141).  The generated UUID
and `Timestamp.now()` are passed in as `newAnswerId` and `now`.  Note the
source skips the milestone check (its `TODO`) and always returns
`newMilestones = []`. -/
def handleAnswerCommand (st : DBState) (accountId : String) (quiz : Quiz)
    (answerIndex : ℕ) (newAnswerId : String) (now : ℤ) :
    AnswerCommandResult × DBState :=
  let existingAnswers := getAnswersByUser st accountId
  match existingAnswers.find? (fun a => a.quizId == quiz.quizId) with
  | some userAnswer =>
      ({ success := true, isCorrect := userAnswer.isCorrect, quiz := quiz,
         answer := userAnswer, stats := getSkillStatsByUser st accountId,
         newMilestones := [], alreadyAnswered := true }, st)
  | none =>
      let isCorrect : Bool := answerIndex == quiz.correctAnswerIndex
      let answer := createAnswer newAnswerId quiz.quizId accountId answerIndex quiz now
      let st1 := { st with answers := st.answers ++ [answer] }
      let st2 := updateUserStatsState st1 accountId isCorrect
      let st3 := updateSkillStatsState st2 accountId quiz.category quiz.difficulty
        isCorrect now
      ({ success := true, isCorrect := isCorrect, quiz := quiz, answer := answer,
         stats := getSkillStatsByUser st3 accountId,
         newMilestones := [], alreadyAnswered := false }, st3)

/-- C10: when the user has already answered the quiz, `handleAnswerCommand`
mutates nothing and returns the originally stored answer, its original
`isCorrect` value, and `alreadyAnswered = true`. -/
theorem handleAnswerCommand_already_answered (st : DBState) (accountId : String)
    (quiz : Quiz) (answerIndex : ℕ) (newAnswerId : String) (now : ℤ)
    (h : ∃ a ∈ st.answers, a.accountId = accountId ∧ a.quizId = quiz.quizId) :
    (handleAnswerCommand st accountId quiz answerIndex newAnswerId now).2 = st ∧
    (handleAnswerCommand st accountId quiz answerIndex newAnswerId now).1.alreadyAnswered
      = true ∧
    (handleAnswerCommand st accountId quiz answerIndex newAnswerId now).1.newMilestones
      = [] ∧
    ∃ a ∈ st.answers, a.accountId = accountId ∧ a.quizId = quiz.quizId ∧
      (handleAnswerCommand st accountId quiz answerIndex newAnswerId now).1.answer = a ∧
      (handleAnswerCommand st accountId quiz answerIndex newAnswerId now).1.isCorrect
        = a.isCorrect := by
  have hsome : ((getAnswersByUser st accountId).find?
      (fun a => a.quizId == quiz.quizId)).isSome := by
    rw [List.find?_isSome]
    obtain ⟨a, hmem, hacc, hqid⟩ := h
    exact ⟨a, by simp [getAnswersByUser, List.mem_filter, hmem, hacc], by simp [hqid]⟩
  obtain ⟨a, hfind⟩ := Option.isSome_iff_exists.mp hsome
  have hmem : a ∈ getAnswersByUser st accountId := List.mem_of_find?_eq_some hfind
  have hqid : a.quizId = quiz.quizId := by
    have := List.find?_some hfind
    simpa using this
  have hmem' : a ∈ st.answers ∧ (a.accountId == accountId) = true :=
    List.mem_filter.mp hmem
  refine ⟨?_, ?_, ?_, a, hmem'.1, by simpa using hmem'.2, hqid, ?_, ?_⟩ <;>
    simp [handleAnswerCommand, hfind]

/-- Concrete state for the witness and the milestone-skipping run: one user
with no prior answers, and one stored answer for the already-answered case. -/
def c5State : DBState :=
  { answers := [], users := [⟨"u", 0, 0⟩], skillStats := [], milestones := [] }

/-- Concrete quiz for the milestone-skipping run. -/
def c5Quiz : Quiz :=
  { quizId := "q1", accountId := "u", category := "security",
    difficulty := .medium, correctAnswerIndex := 0 }

/-- Concrete state for the C10 witness: "u" has already answered quiz "q1". -/
def c10State : DBState :=
  { answers := [sampleAnswer], users := [⟨"u", 1, 0⟩],
    skillStats := [], milestones := [] }

/-- Witness for C10: a state holding one answer by "u" to quiz "q1" is left
unchanged when "u" answers "q1" again. -/
theorem handleAnswerCommand_already_answered_witness :
    (handleAnswerCommand c10State "u" c5Quiz 2 "a2" 5).2 = c10State ∧
    (handleAnswerCommand c10State "u" c5Quiz 2 "a2" 5).1.alreadyAnswered = true ∧
    (handleAnswerCommand c10State "u" c5Quiz 2 "a2" 5).1.newMilestones = [] ∧
    ∃ a ∈ c10State.answers,
      a.accountId = "u" ∧ a.quizId = c5Quiz.quizId ∧
      (handleAnswerCommand c10State "u" c5Quiz 2 "a2" 5).1.answer = a ∧
      (handleAnswerCommand c10State "u" c5Quiz 2 "a2" 5).1.isCorrect = a.isCorrect :=
  handleAnswerCommand_already_answered c10State "u" c5Quiz 2 "a2" 5
    ⟨sampleAnswer, by simp [c10State, sampleAnswer], rfl, rfl⟩

/-- C5 divergence: `handleAnswerCommand` always returns `newMilestones = []`
(the milestone check is skipped behind a TODO), although on a concrete new
answer the milestone detector `checkAndCreateMilestones`, run on the updated
user totals and stats as the spec's data flow prescribes, would fire a
milestone.  The last conjunct records the post-update user totals. -/
theorem handleAnswerCommand_drops_milestones :
    (∀ (st : DBState) (accountId : String) (quiz : Quiz) (answerIndex : ℕ)
        (newAnswerId : String) (now : ℤ),
        (handleAnswerCommand st accountId quiz answerIndex newAnswerId now).1.newMilestones
          = []) ∧
    (handleAnswerCommand c5State "u" c5Quiz 0 "a1" 0).1.alreadyAnswered = false ∧
    (handleAnswerCommand c5State "u" c5Quiz 0 "a1" 0).2.users = [⟨"u", 1, 1⟩] ∧
    checkAndCreateMilestones "u"
        (handleAnswerCommand c5State "u" c5Quiz 0 "a1" 0).1.answer ⟨"u", 1, 1⟩
        (getSkillStat (handleAnswerCommand c5State "u" c5Quiz 0 "a1" 0).2 "u" "security")
        (handleAnswerCommand c5State "u" c5Quiz 0 "a1" 0).2.milestones ≠ [] := by
  refine ⟨?_, ?_, ?_, ?_⟩
  · intro st accountId quiz answerIndex newAnswerId now
    rcases hfind : (getAnswersByUser st accountId).find?
        (fun a => a.quizId == quiz.quizId) with _ | a <;>
      simp [handleAnswerCommand, hfind]
  · rfl
  · rfl
  · norm_num [checkAndCreateMilestones, handleAnswerCommand, c5State, c5Quiz,
      getAnswersByUser, getSkillStat, updateSkillStatsState, updateUserStatsState,
      createAnswer, updateSkillStats]

/-- A `UserProfile` document (`src/types/entities/userProfile.ts`),
restricted to the fields the Recommender reads. -/
structure UserProfile where
  accountId : String
  experienceLevel : String
  focusAreas : List String
deriving DecidableEq, Repr

/-- `getDaysSince` in the personalization service: elapsed whole days
between the stat's `lastAnsweredAt` (seconds) and now (milliseconds);
`Math.floor` is floor division. -/
def getDaysSince (lastAnsweredAt : ℤ) (nowMs : ℤ) : ℤ :=
  Int.fdiv (nowMs - lastAnsweredAt * 1000) 86400000

/-- Shallow embedding of `calculateCategoryPriority` (personalization
service, `src/index.ts` claim lines 126–171): the four weighted signals
added in source order. -/
def calculateCategoryPriority (profile : UserProfile) (skillStats : List SkillStats)
    (category : String) (nowMs : ℤ) : ℚ :=
  let categoryStats := skillStats.find? (fun s => s.category == category)
  let score1 : ℚ :=
    match categoryStats with
    | some s => if s.totalQuizzes ≥ 3 then (1 - s.correctRate) * 0.4 else 0.2
    | none => 0.2
  let score2 : ℚ := if category ∈ profile.focusAreas then 0.3 else 0
  let score3 : ℚ :=
    match categoryStats with
    | some s =>
        if getDaysSince s.lastAnsweredAt nowMs ≥ 7 then 0.2
        else if getDaysSince s.lastAnsweredAt nowMs ≥ 3 then 0.1
        else 0
    | none => 0.15
  let score4 : ℚ :=
    match categoryStats with
    | some s => if s.averageDifficulty < 2 then 0.1 else 0
    | none => 0
  score1 + score2 + score3 + score4

/-- The category priority score as the spec words it (for comparison with
the source's `calculateCategoryPriority`): 0.4 × (1 − correctRate) when the
category has ≥ 3 attempts else a flat 0.2; plus 0.3 when the category is a
focus area; plus 0.2 when last answered ≥ 7 days ago, 0.1 when 3–6 days
ago, 0.15 when never answered, else 0; plus 0.1 when the category's average
difficulty is below 2. -/
def specCategoryScore (profile : UserProfile) (skillStats : List SkillStats)
    (category : String) (nowMs : ℤ) : ℚ :=
  let stat := skillStats.find? (fun s => s.category == category)
  let attempts : ℕ := match stat with | some s => s.totalQuizzes | none => 0
  let weakness : ℚ :=
    if attempts ≥ 3 then
      0.4 * (1 - (match stat with | some s => s.correctRate | none => 0))
    else 0.2
  let goalRelevance : ℚ := if category ∈ profile.focusAreas then 0.3 else 0
  let reviewTiming : ℚ :=
    match stat with
    | some s =>
        if getDaysSince s.lastAnsweredAt nowMs ≥ 7 then 0.2
        else if 3 ≤ getDaysSince s.lastAnsweredAt nowMs ∧
            getDaysSince s.lastAnsweredAt nowMs ≤ 6 then 0.1
        else 0
    | none => 0.15
  let growth : ℚ :=
    match stat with
    | some s => if s.averageDifficulty < 2 then 0.1 else 0
    | none => 0
  weakness + goalRelevance + reviewTiming + growth

/-- The concrete profile of the spec's Recommender scoring example. -/
def recProfile : UserProfile :=
  { accountId := "u", experienceLevel := "mid", focusAreas := ["security"] }

/-- The concrete stat of the spec's Recommender scoring example: 10 attempts,
2 correct, average difficulty 1.5, last answered at time 0. -/
def recStat : SkillStats :=
  { accountId := "u", category := "security", totalQuizzes := 10,
    correctCount := 2, correctRate := 0.2, averageDifficulty := 1.5,
    lastAnsweredAt := 0, weeklyTrend := 0, monthlyTrend := 0 }

/-- C7: the priority score computed by `calculateCategoryPriority` is the
spec's weighted sum of the four signals, and the spec's example — 10
attempts, 2 correct, a focus-area category last answered 10 days ago with
average difficulty 1.5 — scores exactly 0.92. -/
theorem calculateCategoryPriority_weighted_sum :
    (∀ (profile : UserProfile) (skillStats : List SkillStats) (category : String)
        (nowMs : ℤ),
        calculateCategoryPriority profile skillStats category nowMs =
          specCategoryScore profile skillStats category nowMs) ∧
    calculateCategoryPriority recProfile [recStat] "security" (10 * 86400000) = 0.92 := by
  constructor
  · intro profile skillStats category nowMs
    rcases hf : skillStats.find? (fun s => s.category == category) with _ | s
    · simp only [calculateCategoryPriority, specCategoryScore, hf]
      norm_num
    · simp only [calculateCategoryPriority, specCategoryScore, hf]
      have hw : (if 3 ≤ s.totalQuizzes then (1 - s.correctRate) * 0.4 else (0.2 : ℚ)) =
          (if 3 ≤ s.totalQuizzes then 0.4 * (1 - s.correctRate) else (0.2 : ℚ)) := by
        split_ifs <;> ring
      have hr : (if 7 ≤ getDaysSince s.lastAnsweredAt nowMs then (0.2 : ℚ)
            else if 3 ≤ getDaysSince s.lastAnsweredAt nowMs then 0.1 else 0) =
          (if 7 ≤ getDaysSince s.lastAnsweredAt nowMs then (0.2 : ℚ)
            else if 3 ≤ getDaysSince s.lastAnsweredAt nowMs ∧
                getDaysSince s.lastAnsweredAt nowMs ≤ 6 then 0.1 else 0) := by
        by_cases h7 : 7 ≤ getDaysSince s.lastAnsweredAt nowMs
        · rw [if_pos h7, if_pos h7]
        · rw [if_neg h7, if_neg h7]
          have hiff : (3 ≤ getDaysSince s.lastAnsweredAt nowMs ∧
              getDaysSince s.lastAnsweredAt nowMs ≤ 6) ↔
              3 ≤ getDaysSince s.lastAnsweredAt nowMs := by
            constructor
            · exact fun h => h.1
            · intro h3; exact ⟨h3, by omega⟩
          simp only [hiff]
      simp only [ge_iff_le]
      rw [hw, hr]
  · have hd : getDaysSince 0 864000000 = 10 := by decide
    norm_num [calculateCategoryPriority, recProfile, recStat, hd]

/-- `increaseDifficulty` in the personalization service. -/
def increaseDifficulty : Difficulty → Difficulty
  | .easy => .medium
  | .medium => .hard
  | .hard => .hard

/-- `decreaseDifficulty` in the personalization service. -/
def decreaseDifficulty : Difficulty → Difficulty
  | .easy => .easy
  | .medium => .easy
  | .hard => .medium

/-- Shallow embedding of `selectOptimalDifficulty` (personalization service,
`src/index.ts` claim lines 176–242): baseline from the experience level,
adjusted by the chosen category's stats. -/
def selectOptimalDifficulty (profile : Option UserProfile)
    (categoryStats : Option SkillStats) : Difficulty :=
  match profile with
  | none => .easy
  | some p =>
      let baseDifficulty : Difficulty :=
        if p.experienceLevel = "junior" then .easy
        else if p.experienceLevel = "mid" then .medium
        else if p.experienceLevel = "senior" then .hard
        else .medium
      match categoryStats with
      | some s =>
          if s.totalQuizzes ≥ 5 then
            if s.correctRate ≥ 0.8 then increaseDifficulty baseDifficulty
            else if s.correctRate ≤ 0.4 then decreaseDifficulty baseDifficulty
            else baseDifficulty
          else baseDifficulty
      | none => baseDifficulty

/-- Difficulty selection as the spec words it (for comparison with the
source's `selectOptimalDifficulty`): no profile ⇒ easy; baseline
junior→easy, mid→medium, senior→hard, unrecognized→medium; with ≥ 5
attempts, rate ≥ 0.8 escalates one step and rate ≤ 0.4 de-escalates one
step; otherwise the baseline stands. -/
def specSelectDifficulty (profile : Option UserProfile)
    (stat : Option SkillStats) : Difficulty :=
  match profile with
  | none => .easy
  | some p =>
      let base : Difficulty :=
        if p.experienceLevel = "junior" then .easy
        else if p.experienceLevel = "mid" then .medium
        else if p.experienceLevel = "senior" then .hard
        else .medium
      match stat with
      | some s =>
          if 5 ≤ s.totalQuizzes ∧ 0.8 ≤ s.correctRate then increaseDifficulty base
          else if 5 ≤ s.totalQuizzes ∧ s.correctRate ≤ 0.4 then decreaseDifficulty base
          else base
      | none => base

/-- C8: `selectOptimalDifficulty` returns easy with no profile, otherwise
maps the experience level to a baseline (junior→easy, mid→medium,
senior→hard, unrecognized→medium) and, when the category stat has ≥ 5
attempts, escalates one step on rate ≥ 0.8 and de-escalates one step on
rate ≤ 0.4, clamped at the extremes; in all other cases the baseline
stands. -/
theorem selectOptimalDifficulty_spec :
    ∀ (profile : Option UserProfile) (stat : Option SkillStats),
      selectOptimalDifficulty profile stat = specSelectDifficulty profile stat := by
  intro profile stat
  rcases profile with _ | p
  · rfl
  · rcases stat with _ | s
    · rfl
    · simp only [selectOptimalDifficulty, specSelectDifficulty, ge_iff_le]
      split_ifs <;> first | rfl | tauto

/-- The period/category filter of `calculateAndSaveTeamAnalytics`: answers
whose `answeredAt` lies in the period window, optionally restricted to one
category.  The source computes the window from the `"YYYY-MM"` string via
calendar arithmetic; the embedding takes the window bounds directly. -/
def periodAnswers (allAnswers : List AnswerRec) (periodStart periodEnd : ℤ)
    (category : Option String) : List AnswerRec :=
  allAnswers.filter (fun a =>
    if periodStart ≤ a.answeredAt ∧ a.answeredAt ≤ periodEnd then
      match category with
      | some c => a.category == c
      | none => true
    else false)

/-- One step of the per-user grouping `Map` in
`calculateAndSaveTeamAnalytics`: bump `(correct, total)` for the answer's
user, keeping first-insertion order. -/
def bumpUserStats (m : List (String × ℕ × ℕ)) (a : AnswerRec) :
    List (String × ℕ × ℕ) :=
  match m with
  | [] => [(a.accountId, (if a.isCorrect then 1 else 0), 1)]
  | (k, corr, tot) :: rest =>
      if k == a.accountId then
        (k, corr + (if a.isCorrect then 1 else 0), tot + 1) :: rest
      else (k, corr, tot) :: bumpUserStats rest a

/-- The `userStats` map of `calculateAndSaveTeamAnalytics`. -/
def groupUserStats (answers : List AnswerRec) : List (String × ℕ × ℕ) :=
  answers.foldl bumpUserStats []

/-- The `filteredUsers` list of `calculateAndSaveTeamAnalytics`: all grouped
users, restricted — when an experience level is given — to users whose
profile document matches that level. -/
def filteredUsersOf (userStats : List (String × ℕ × ℕ)) (profiles : List UserProfile)
    (experienceLevel : Option String) : List String :=
  match experienceLevel with
  | none => userStats.map (fun e => e.1)
  | some lv =>
      let profileAccountIds :=
        (profiles.filter (fun p => p.experienceLevel == lv)).map (fun p => p.accountId)
      (userStats.map (fun e => e.1)).filter (fun u => profileAccountIds.contains u)

/-- The per-user correct rate read back from the grouping map
(`stats.correct / stats.total`, `0` when the user is missing). -/
def lookupRate (userStats : List (String × ℕ × ℕ)) (u : String) : ℚ :=
  match userStats.find? (fun e => e.1 == u) with
  | some e => (e.2.1 : ℚ) / (e.2.2 : ℚ)
  | none => 0

/-- `getPercentile` inside `calculateAndSaveTeamAnalytics`:
`arr[Math.min(Math.floor(arr.length * percentile), arr.length - 1)]`,
`0` for an empty array. -/
def getPercentile (arr : List ℚ) (percentile : ℚ) : ℚ :=
  if arr.length = 0 then 0
  else arr.getD (min (⌊(arr.length : ℚ) * percentile⌋).toNat (arr.length - 1)) 0

/-- A `TeamAnalytics` document (`src/types/entities/teamAnalytics.ts`). -/
structure TeamAnalytics where
  analyticsId : String
  period : String
  experienceLevel : Option String
  category : Option String
  avgCorrectRate : ℚ
  totalQuizzes : ℕ
  activeUsers : ℕ
  percentile25 : ℚ
  percentile50 : ℚ
  percentile75 : ℚ
  percentile90 : ℚ
  calculatedAt : ℤ
deriving DecidableEq, Repr

/-- The `analyticsId` key: period, then optional level and category suffixes. -/
def analyticsIdOf (period : String) (experienceLevel category : Option String) :
    String :=
  period ++
    (match experienceLevel with | some l => "_" ++ l | none => "") ++
    (match category with | some c => "_" ++ c | none => "")

/-- `doc(id).set(record)`: full overwrite of the document under the key,
creating it when absent. -/
def setDoc (store : List (String × TeamAnalytics)) (k : String) (v : TeamAnalytics) :
    List (String × TeamAnalytics) :=
  if store.any (fun e => e.1 == k) then
    store.map (fun e => if e.1 == k then (k, v) else e)
  else store ++ [(k, v)]

/-- Document lookup by key. -/
def lookupDoc (store : List (String × TeamAnalytics)) (k : String) :
    Option TeamAnalytics :=
  (store.find? (fun e => e.1 == k)).map (fun e => e.2)

/-- The sorted per-user correct rates (`correctRates` in the source:
mapped from `filteredUsers`, sorted ascending). -/
def teamSortedRates (allAnswers : List AnswerRec) (profiles : List UserProfile)
    (periodStart periodEnd : ℤ) (experienceLevel category : Option String) :
    List ℚ :=
  let userStats := groupUserStats (periodAnswers allAnswers periodStart periodEnd category)
  let filteredUsers := filteredUsersOf userStats profiles experienceLevel
  (filteredUsers.map (lookupRate userStats)).insertionSort (fun a b => a ≤ b)

/-- Shallow embedding of `calculateAndSaveTeamAnalytics`
(`src/services/firestore.ts`, lines 639–742).  The Firestore reads become
the `allAnswers`/`profiles`/`store` parameters, `Timestamp.now()` becomes
`now`, and the final `set` is the returned store. -/
def calculateAndSaveTeamAnalytics (allAnswers : List AnswerRec)
    (profiles : List UserProfile) (period : String) (periodStart periodEnd : ℤ)
    (experienceLevel category : Option String) (now : ℤ)
    (store : List (String × TeamAnalytics)) :
    TeamAnalytics × List (String × TeamAnalytics) :=
  let answers := periodAnswers allAnswers periodStart periodEnd category
  let userStats := groupUserStats answers
  let filteredUsers := filteredUsersOf userStats profiles experienceLevel
  let correctRates :=
    teamSortedRates allAnswers profiles periodStart periodEnd experienceLevel category
  let avgCorrectRate : ℚ :=
    if 0 < correctRates.length then correctRates.sum / (correctRates.length : ℚ)
    else 0
  let analyticsId := analyticsIdOf period experienceLevel category
  let teamAnalytics : TeamAnalytics :=
    { analyticsId := analyticsId, period := period,
      experienceLevel := experienceLevel, category := category,
      avgCorrectRate := avgCorrectRate,
      totalQuizzes := answers.length,
      activeUsers := filteredUsers.length,
      percentile25 := getPercentile correctRates 0.25,
      percentile50 := getPercentile correctRates 0.5,
      percentile75 := getPercentile correctRates 0.75,
      percentile90 := getPercentile correctRates 0.9,
      calculatedAt := now }
  (teamAnalytics, setDoc store analyticsId teamAnalytics)

/-- Nearest-rank percentile as the spec words it (for comparison with the
source's `getPercentile`): the entry of the ascending array at index
floor(n·P), clamped to the last index; no interpolation. -/
def specNearestRank (sortedRates : List ℚ) (p : ℚ) : ℚ :=
  sortedRates.getD
    (min (⌊(sortedRates.length : ℚ) * p⌋).toNat (sortedRates.length - 1)) 0

section TeamAnalyticsLemmas

lemma getPercentile_eq_specNearestRank (arr : List ℚ) (p : ℚ) (h : arr.length ≠ 0) :
    getPercentile arr p = specNearestRank arr p := by
  rw [getPercentile, if_neg h]; rfl

lemma setDoc_any (store : List (String × TeamAnalytics)) (k : String)
    (v : TeamAnalytics) :
    (setDoc store k v).any (fun e => e.1 == k) = true := by
  rw [setDoc]; split
  · rename_i h
    rw [List.any_map]
    rw [List.any_eq_true] at h ⊢
    obtain ⟨e, he, hpe⟩ := h
    exact ⟨e, he, by simp [Function.comp, hpe]⟩
  · rw [List.any_append]
    simp

lemma setDoc_length (store : List (String × TeamAnalytics)) (k : String)
    (v : TeamAnalytics) (h : store.any (fun e => e.1 == k) = true) :
    (setDoc store k v).length = store.length := by
  rw [setDoc, if_pos h, List.length_map]

lemma find?_overwrite (store : List (String × TeamAnalytics)) (k : String)
    (v : TeamAnalytics) (h : store.any (fun e => e.1 == k) = true) :
    (store.map (fun e => if e.1 == k then (k, v) else e)).find?
      (fun e => e.1 == k) = some (k, v) := by
  induction store with
  | nil => simp at h
  | cons e rest ih =>
      by_cases he : (e.1 == k) = true
      · rw [List.map_cons, if_pos he]
        exact List.find?_cons_of_pos _ (by simp)
      · have h' : rest.any (fun e => e.1 == k) = true := by
          rcases List.any_eq_true.mp h with ⟨x, hx, hpx⟩
          rcases List.mem_cons.mp hx with rfl | hx'
          · exact absurd hpx he
          · exact List.any_eq_true.mpr ⟨x, hx', hpx⟩
        rw [List.map_cons, if_neg he]
        exact (@List.find?_cons_of_neg _ (fun e => e.1 == k) e
          (List.map (fun e => if e.1 == k then (k, v) else e) rest) he).trans (ih h')

lemma lookupDoc_setDoc_of_any (store : List (String × TeamAnalytics)) (k : String)
    (v : TeamAnalytics) (h : store.any (fun e => e.1 == k) = true) :
    lookupDoc (setDoc store k v) k = some v := by
  rw [lookupDoc, setDoc, if_pos h, find?_overwrite store k v h]; rfl

end TeamAnalyticsLemmas

/-- The users of the spec's four-user percentile cohort, answering five
quizzes each with 1, 2, 3 and 4 correct answers respectively. -/
def c6a (u : String) (i : ℕ) (c : Bool) : AnswerRec :=
  { answerId := u ++ toString i, quizId := "q" ++ toString i, accountId := u,
    selectedAnswerIndex := 0, isCorrect := c, category := "security",
    difficulty := .medium, answeredAt := 0 }

/-- The 20 answers of the spec's percentile cohort: per-user correct rates
0.2, 0.4, 0.6, 0.8. -/
def c6Answers : List AnswerRec :=
  [c6a "a" 1 true, c6a "a" 2 false, c6a "a" 3 false, c6a "a" 4 false, c6a "a" 5 false,
   c6a "b" 1 true, c6a "b" 2 true, c6a "b" 3 false, c6a "b" 4 false, c6a "b" 5 false,
   c6a "c" 1 true, c6a "c" 2 true, c6a "c" 3 true, c6a "c" 4 false, c6a "c" 5 false,
   c6a "d" 1 true, c6a "d" 2 true, c6a "d" 3 true, c6a "d" 4 true, c6a "d" 5 false]

/-- C6: `calculateAndSaveTeamAnalytics` computes every percentile P of the
written aggregate as the nearest-rank entry `sortedRates[min(floor(n·P),
n−1)]` and `avgCorrectRate` as the arithmetic mean of the per-user rates
when n ≥ 1; with zero qualifying users all percentiles and the average are
0, `activeUsers` is 0, and `totalQuizzes` is the raw period answer count
before grouping and level filtering; the cohort with rates
[0.2, 0.4, 0.6, 0.8] gets percentile50 = 0.6 and percentile90 = 0.8. -/
theorem calculateAndSaveTeamAnalytics_spec :
    (∀ (allAnswers : List AnswerRec) (profiles : List UserProfile) (period : String)
        (ps pe : ℤ) (lv cat : Option String) (now : ℤ)
        (store : List (String × TeamAnalytics)),
        1 ≤ (teamSortedRates allAnswers profiles ps pe lv cat).length →
        (calculateAndSaveTeamAnalytics allAnswers profiles period ps pe lv cat
            now store).1.percentile25 =
          specNearestRank (teamSortedRates allAnswers profiles ps pe lv cat) 0.25 ∧
        (calculateAndSaveTeamAnalytics allAnswers profiles period ps pe lv cat
            now store).1.percentile50 =
          specNearestRank (teamSortedRates allAnswers profiles ps pe lv cat) 0.5 ∧
        (calculateAndSaveTeamAnalytics allAnswers profiles period ps pe lv cat
            now store).1.percentile75 =
          specNearestRank (teamSortedRates allAnswers profiles ps pe lv cat) 0.75 ∧
        (calculateAndSaveTeamAnalytics allAnswers profiles period ps pe lv cat
            now store).1.percentile90 =
          specNearestRank (teamSortedRates allAnswers profiles ps pe lv cat) 0.9 ∧
        (calculateAndSaveTeamAnalytics allAnswers profiles period ps pe lv cat
            now store).1.avgCorrectRate =
          ((filteredUsersOf (groupUserStats (periodAnswers allAnswers ps pe cat))
              profiles lv).map
            (lookupRate (groupUserStats (periodAnswers allAnswers ps pe cat)))).sum /
          ((((filteredUsersOf (groupUserStats (periodAnswers allAnswers ps pe cat))
              profiles lv).map
            (lookupRate (groupUserStats (periodAnswers allAnswers ps pe cat)))).length : ℕ) : ℚ)) ∧
    (∀ (allAnswers : List AnswerRec) (profiles : List UserProfile) (period : String)
        (ps pe : ℤ) (lv cat : Option String) (now : ℤ)
        (store : List (String × TeamAnalytics)),
        (teamSortedRates allAnswers profiles ps pe lv cat).length = 0 →
        (calculateAndSaveTeamAnalytics allAnswers profiles period ps pe lv cat
            now store).1.percentile25 = 0 ∧
        (calculateAndSaveTeamAnalytics allAnswers profiles period ps pe lv cat
            now store).1.percentile50 = 0 ∧
        (calculateAndSaveTeamAnalytics allAnswers profiles period ps pe lv cat
            now store).1.percentile75 = 0 ∧
        (calculateAndSaveTeamAnalytics allAnswers profiles period ps pe lv cat
            now store).1.percentile90 = 0 ∧
        (calculateAndSaveTeamAnalytics allAnswers profiles period ps pe lv cat
            now store).1.avgCorrectRate = 0 ∧
        (calculateAndSaveTeamAnalytics allAnswers profiles period ps pe lv cat
            now store).1.activeUsers = 0 ∧
        (calculateAndSaveTeamAnalytics allAnswers profiles period ps pe lv cat
            now store).1.totalQuizzes = (periodAnswers allAnswers ps pe cat).length) ∧
    (teamSortedRates c6Answers [] 0 100 none none = [0.2, 0.4, 0.6, 0.8] ∧
     (calculateAndSaveTeamAnalytics c6Answers [] "2025-01" 0 100 none none 0
        []).1.percentile50 = 0.6 ∧
     (calculateAndSaveTeamAnalytics c6Answers [] "2025-01" 0 100 none none 0
        []).1.percentile90 = 0.8) := by
  have hrates : teamSortedRates c6Answers [] 0 100 none none = [0.2, 0.4, 0.6, 0.8] := by
    have hgroup : groupUserStats (periodAnswers c6Answers 0 100 none) =
        [("a", 1, 5), ("b", 2, 5), ("c", 3, 5), ("d", 4, 5)] := by
      simp [groupUserStats, periodAnswers, c6Answers, c6a, bumpUserStats]
    rw [teamSortedRates]
    simp only [hgroup, filteredUsersOf]
    simp [lookupRate, List.insertionSort, List.orderedInsert, List.find?]
    norm_num
  refine ⟨?_, ?_, hrates, ?_, ?_⟩
  · intro allAnswers profiles period ps pe lv cat now store h
    have hne : (teamSortedRates allAnswers profiles ps pe lv cat).length ≠ 0 := by omega
    have hperm := List.perm_insertionSort (fun a b : ℚ => a ≤ b)
      ((filteredUsersOf (groupUserStats (periodAnswers allAnswers ps pe cat))
          profiles lv).map
        (lookupRate (groupUserStats (periodAnswers allAnswers ps pe cat))))
    refine ⟨getPercentile_eq_specNearestRank _ _ hne,
      getPercentile_eq_specNearestRank _ _ hne,
      getPercentile_eq_specNearestRank _ _ hne,
      getPercentile_eq_specNearestRank _ _ hne, ?_⟩
    show (if 0 < (teamSortedRates allAnswers profiles ps pe lv cat).length then
        (teamSortedRates allAnswers profiles ps pe lv cat).sum /
          ((teamSortedRates allAnswers profiles ps pe lv cat).length : ℚ)
      else 0) = _
    rw [if_pos (by omega)]
    rw [show (teamSortedRates allAnswers profiles ps pe lv cat).sum =
        ((filteredUsersOf (groupUserStats (periodAnswers allAnswers ps pe cat))
            profiles lv).map
          (lookupRate (groupUserStats (periodAnswers allAnswers ps pe cat)))).sum
      from hperm.sum_eq]
    rw [show (teamSortedRates allAnswers profiles ps pe lv cat).length =
        ((filteredUsersOf (groupUserStats (periodAnswers allAnswers ps pe cat))
            profiles lv).map
          (lookupRate (groupUserStats (periodAnswers allAnswers ps pe cat)))).length
      from hperm.length_eq]
  · intro allAnswers profiles period ps pe lv cat now store h
    have hperm := List.perm_insertionSort (fun a b : ℚ => a ≤ b)
      ((filteredUsersOf (groupUserStats (periodAnswers allAnswers ps pe cat))
          profiles lv).map
        (lookupRate (groupUserStats (periodAnswers allAnswers ps pe cat))))
    have hlen : ((filteredUsersOf (groupUserStats (periodAnswers allAnswers ps pe cat))
        profiles lv).map
      (lookupRate (groupUserStats (periodAnswers allAnswers ps pe cat)))).length = 0 := by
      rw [← hperm.length_eq]; exact h
    refine ⟨?_, ?_, ?_, ?_, ?_, ?_, rfl⟩
    · show getPercentile (teamSortedRates allAnswers profiles ps pe lv cat) 0.25 = 0
      rw [getPercentile, if_pos h]
    · show getPercentile (teamSortedRates allAnswers profiles ps pe lv cat) 0.5 = 0
      rw [getPercentile, if_pos h]
    · show getPercentile (teamSortedRates allAnswers profiles ps pe lv cat) 0.75 = 0
      rw [getPercentile, if_pos h]
    · show getPercentile (teamSortedRates allAnswers profiles ps pe lv cat) 0.9 = 0
      rw [getPercentile, if_pos h]
    · show (if 0 < (teamSortedRates allAnswers profiles ps pe lv cat).length then
          (teamSortedRates allAnswers profiles ps pe lv cat).sum /
            ((teamSortedRates allAnswers profiles ps pe lv cat).length : ℚ)
        else 0) = 0
      rw [if_neg (by omega)]
    · show (filteredUsersOf (groupUserStats (periodAnswers allAnswers ps pe cat))
          profiles lv).length = 0
      rw [List.length_map] at hlen
      exact hlen
  · show getPercentile (teamSortedRates c6Answers [] 0 100 none none) 0.5 = 0.6
    rw [hrates, getPercentile]
    norm_num
    rfl
  · show getPercentile (teamSortedRates c6Answers [] 0 100 none none) 0.9 = 0.8
    rw [hrates, getPercentile]
    norm_num
    rfl

/-- Witness for C6: the percentile identities applied to the four-user
cohort, and the zero-user case applied to an empty answer store. -/
theorem calculateAndSaveTeamAnalytics_spec_witness :
    ((calculateAndSaveTeamAnalytics c6Answers [] "2025-01" 0 100 none none 0
        []).1.percentile50 =
      specNearestRank (teamSortedRates c6Answers [] 0 100 none none) 0.5) ∧
    ((calculateAndSaveTeamAnalytics [] [] "2025-02" 0 100 none none 0
        []).1.avgCorrectRate = 0) := by
  constructor
  · exact (calculateAndSaveTeamAnalytics_spec.1 c6Answers [] "2025-01" 0 100 none none 0
      [] (by rw [calculateAndSaveTeamAnalytics_spec.2.2.1]; norm_num)).2.1
  · exact (calculateAndSaveTeamAnalytics_spec.2.1 [] [] "2025-02" 0 100 none none 0
      [] rfl).2.2.2.2.1

/-- C9 counterexample: re-running the aggregation for the same key with
unchanged answers and profiles does not produce a bit-identical record,
because `calculatedAt` is stamped with the clock at each run. -/
theorem teamAnalytics_rerun_not_bit_identical :
    (calculateAndSaveTeamAnalytics [] [] "2025-01" 0 100 none none 0 []).1 ≠
      (calculateAndSaveTeamAnalytics [] [] "2025-01" 0 100 none none 1 []).1 := by
  intro h
  have h2 := congrArg TeamAnalytics.calculatedAt h
  norm_num [calculateAndSaveTeamAnalytics] at h2

/-- C9 (amended): re-running `calculateAndSaveTeamAnalytics` for the same
(period, level, category) key with unchanged answers and profiles produces a
record identical in every field except `calculatedAt` (bit-identical when the
clock reading is equal), and the second write fully overwrites the first:
the store does not grow and the key maps to the latest record. -/
theorem teamAnalytics_rerun_idempotent :
    ∀ (allAnswers : List AnswerRec) (profiles : List UserProfile) (period : String)
      (ps pe : ℤ) (lv cat : Option String) (t1 t2 : ℤ)
      (store : List (String × TeamAnalytics)),
      (calculateAndSaveTeamAnalytics allAnswers profiles period ps pe lv cat t1
          store).1 =
        { (calculateAndSaveTeamAnalytics allAnswers profiles period ps pe lv cat t2
            ((calculateAndSaveTeamAnalytics allAnswers profiles period ps pe lv cat t1
              store).2)).1 with calculatedAt := t1 } ∧
      (t1 = t2 →
        (calculateAndSaveTeamAnalytics allAnswers profiles period ps pe lv cat t1
            store).1 =
          (calculateAndSaveTeamAnalytics allAnswers profiles period ps pe lv cat t2
            ((calculateAndSaveTeamAnalytics allAnswers profiles period ps pe lv cat t1
              store).2)).1) ∧
      ((calculateAndSaveTeamAnalytics allAnswers profiles period ps pe lv cat t2
          ((calculateAndSaveTeamAnalytics allAnswers profiles period ps pe lv cat t1
            store).2)).2).length =
        ((calculateAndSaveTeamAnalytics allAnswers profiles period ps pe lv cat t1
          store).2).length ∧
      lookupDoc ((calculateAndSaveTeamAnalytics allAnswers profiles period ps pe lv
          cat t2 ((calculateAndSaveTeamAnalytics allAnswers profiles period ps pe lv
            cat t1 store).2)).2) (analyticsIdOf period lv cat) =
        some ((calculateAndSaveTeamAnalytics allAnswers profiles period ps pe lv cat
          t2 ((calculateAndSaveTeamAnalytics allAnswers profiles period ps pe lv cat
            t1 store).2)).1) := by
  intro allAnswers profiles period ps pe lv cat t1 t2 st
  refine ⟨rfl, ?_, ?_, ?_⟩
  · intro h; subst h; rfl
  · exact setDoc_length _ _ _ (setDoc_any st (analyticsIdOf period lv cat) _)
  · exact lookupDoc_setDoc_of_any _ _ _ (setDoc_any st (analyticsIdOf period lv cat) _)

/-- Witness for C9: the amended idempotence applied at a concrete input with
an equal clock reading on both runs. -/
theorem teamAnalytics_rerun_idempotent_witness :
    ((5 : ℤ) = 5 →
      (calculateAndSaveTeamAnalytics c6Answers [] "2025-01" 0 100 none none 5 []).1 =
        (calculateAndSaveTeamAnalytics c6Answers [] "2025-01" 0 100 none none 5
          ((calculateAndSaveTeamAnalytics c6Answers [] "2025-01" 0 100 none none 5
            []).2)).1) ∧
    lookupDoc ((calculateAndSaveTeamAnalytics c6Answers [] "2025-01" 0 100 none none 5
        ((calculateAndSaveTeamAnalytics c6Answers [] "2025-01" 0 100 none none 5
          []).2)).2) (analyticsIdOf "2025-01" none none) =
      some ((calculateAndSaveTeamAnalytics c6Answers [] "2025-01" 0 100 none none 5
        ((calculateAndSaveTeamAnalytics c6Answers [] "2025-01" 0 100 none none 5
          []).2)).1) :=
  ⟨(teamAnalytics_rerun_idempotent c6Answers [] "2025-01" 0 100 none none 5 5
      []).2.1,
    (teamAnalytics_rerun_idempotent c6Answers [] "2025-01" 0 100 none none 5 5
      []).2.2.2⟩

end MrQuiz
